import Mathlib

/-!
Shallow embedding of `src/pull_papers.py` (class `ArxivCitationDownloader`).

The script has three stages: a Catalog Fetcher (`get_arxiv_cs_ai_papers`)
that pages an arXiv query over 7-day time slices, a Citation Enricher
(`get_semantic_scholar_citations`) that looks up each record by title and
retries on HTTP 429, and a Ranker/Downloader (`run` / `download_paper_pdf`)
that stably sorts by citation count descending, takes the top K and fetches
PDFs, skipping files already on disk.

Network responses are modelled as oracles passed in as arguments; while
loops that are not structurally terminating are modelled with fuel
(`none` = fuel exhausted).  Dates are modelled as ordinal day numbers; the
hard-coded window 2024-01-01 .. 2025-07-01 becomes days 0 .. 547.
-/

/-- A paper record as built by the fetcher (the dict appended at
`papers.append({...})`, lines 169-175): `arxiv_id`, `title`, `authors`,
`published`, `citations` (0 until enriched), plus the optional
`semantic_scholar_id` key the enricher may add. -/
structure Paper where
  arxiv_id : String
  title : String
  authors : List String
  published : String
  citations : Int
  semantic_scholar_id : Option String
deriving DecidableEq

/-- One Semantic Scholar search result (an element of
`search_results['data']`): the optional `externalIds['ArXiv']` value, the
optional `citationCount` and the optional `paperId`. -/
structure Candidate where
  arxivExternalId : Option String
  citationCount : Option Int
  paperId : Option String
deriving DecidableEq

/-- Outcome of one Semantic Scholar request for one paper: a parsed JSON
body (`success`), an HTTP error with a status code and the optional parsed
`Retry-After` header (`httpError`), or any other exception (`otherError`). -/
inductive SSResp where
  | success (data : List Candidate)
  | httpError (status : Nat) (retryAfter : Option Nat)
  | otherError
deriving DecidableEq

/-- Left-to-right scan replacing non-overlapping occurrences of `pat`
(non-empty) by `repl`, the semantics of Python's `str.replace`.  The fuel
argument makes the recursion structural; each step consumes at least one
character, so fuel = input length suffices. -/
def replaceLoop (pat repl : List Char) : Nat → List Char → List Char
  | _, [] => []
  | 0, s => s
  | fuel + 1, c :: rest =>
    if pat.isPrefixOf (c :: rest) then
      repl ++ replaceLoop pat repl fuel (rest.drop (pat.length - 1))
    else
      c :: replaceLoop pat repl fuel rest

/-- Python `s.replace(pat, repl)` for a non-empty pattern (the script only
uses the patterns `'v1'`, `'v2'`, `'v3'`). -/
def pyReplace (s pat repl : String) : String :=
  if pat.toList = [] then s
  else (replaceLoop pat.toList repl.toList s.toList.length s.toList).asString

/-- Line 217: `paper['arxiv_id'].replace('v1', '').replace('v2', '').replace('v3', '')`. -/
def cleanArxivId (s : String) : String :=
  pyReplace (pyReplace (pyReplace s "v1" "") "v2" "") "v3" ""

/-- The `for result in search_results.get('data', [])` loop (lines 214-220):
return the first candidate whose `externalIds['ArXiv']` equals the cleaned
arXiv id (`break` on the first hit), else none. -/
def findArxivMatch (cleanId : String) : List Candidate → Option Candidate
  | [] => none
  | c :: rest =>
    if c.arxivExternalId = some cleanId then some c else findArxivMatch cleanId rest

/-- Lines 212-224: the id-match loop followed by
`if not best_match and search_results.get('data'): best_match = search_results['data'][0]`. -/
def bestMatch (cleanId : String) (data : List Candidate) : Option Candidate :=
  match findArxivMatch cleanId data with
  | some c => some c
  | none => data.head?

/-- Lines 226-230: on a successful response, set
`paper['citations'] = best_match.get('citationCount', 0)` and
`paper['semantic_scholar_id'] = best_match.get('paperId', '')` when a best
match exists, else `paper['citations'] = 0`. -/
def successUpdate (p : Paper) (data : List Candidate) : Paper :=
  match bestMatch (cleanArxivId p.arxiv_id) data with
  | some c =>
    { p with citations := c.citationCount.getD 0,
             semantic_scholar_id := some (c.paperId.getD "") }
  | none => { p with citations := 0 }

/-- The `while True` retry loop for one paper (lines 198-258), with fuel.
`resp attempt` is the response to the (0-based) `attempt`-th request for
this paper.  Returns `none` when fuel runs out, otherwise
`some (kept?, sleeps)` where `kept? = some p'` means the (possibly
enriched) record was appended to the output and `kept? = none` means the
loop hit a non-429 HTTP error or another exception and `break`-ed without
appending; `sleeps` lists the `time.sleep(retry_after)` durations taken,
`retry_after = int(response.headers.get("Retry-After", "1"))`. -/
def enrichLoop (p : Paper) (resp : Nat → SSResp) : Nat → Nat → Option (Option Paper × List Nat)
  | _, 0 => none
  | attempt, fuel + 1 =>
    match resp attempt with
    | .success data => some (some (successUpdate p data), [])
    | .httpError status retryAfter =>
      if status = 429 then
        match enrichLoop p resp (attempt + 1) fuel with
        | none => none
        | some (r, sleeps) => some (r, retryAfter.getD 1 :: sleeps)
      else
        some (none, [])
    | .otherError => some (none, [])

/-- `get_semantic_scholar_citations` (lines 191-260): iterate the retry
loop over the input records, collecting the appended ones in order.  The
input pairs each record with its response oracle; `none` propagates fuel
exhaustion of any single record's retry loop. -/
def get_semantic_scholar_citations :
    List (Paper × (Nat → SSResp)) → Nat → Option (List Paper)
  | [], _ => some []
  | (p, resp) :: rest, fuel =>
    match enrichLoop p resp 0 fuel with
    | none => none
    | some (kept, _) =>
      match get_semantic_scholar_citations rest fuel with
      | none => none
      | some out =>
        some (match kept with
              | some p' => p' :: out
              | none => out)

example :
    get_semantic_scholar_citations
      [({ arxiv_id := "2401.1v1", title := "T", authors := [], published := "",
          citations := 0, semantic_scholar_id := none },
        fun _ => SSResp.success [⟨some "2401.1", some 9, some "pid"⟩])] 1 =
      some [{ arxiv_id := "2401.1v1", title := "T", authors := [], published := "",
              citations := 9, semantic_scholar_id := some "pid" }] := by
  rfl

/-! ### Catalog Fetcher (`get_arxiv_cs_ai_papers`, lines 45-189) -/

/-- `True` iff `pat` occurs as a contiguous substring, the semantics of
Python's `pat in s` (line 134). -/
def listContains (pat : List Char) : List Char → Bool
  | [] => pat.isEmpty
  | c :: rest => pat.isPrefixOf (c :: rest) || listContains pat rest

/-- Python `s.split(sep)[-1]`: the characters after the last occurrence of
the separator (the whole string when the separator does not occur). -/
def lastComponentAux (sep : Char) : List Char → List Char → List Char
  | acc, [] => acc.reverse
  | acc, c :: rest =>
    if c = sep then lastComponentAux sep [] rest else lastComponentAux sep (c :: acc) rest

/-- Python `s.strip()`: drop leading and trailing whitespace. -/
def pyStrip (s : String) : String :=
  (((s.toList.dropWhile Char.isWhitespace).reverse.dropWhile Char.isWhitespace).reverse).asString

/-- One Atom `<entry>` element as far as the script reads it: the `<id>`
URL, the raw title, the author names and the `<published>` text. -/
structure Entry where
  idUrl : String
  title : String
  authors : List String
  published : String
deriving DecidableEq

/-- Lines 132-135: an entry counts as an arXiv error entry when its id URL
contains `'arxiv.org/api/errors'`. -/
def entryIsError (e : Entry) : Bool :=
  listContains "arxiv.org/api/errors".toList e.idUrl.toList

/-- Lines 156-175: the record appended for an entry:
`arxiv_id = id.text.split('/')[-1]`, `title = title.text.strip()`,
`published = published.text[:10]`, `citations = 0`. -/
def entryToPaper (e : Entry) : Paper :=
  { arxiv_id := (lastComponentAux '/' [] e.idUrl.toList).asString
    title := pyStrip e.title
    authors := e.authors
    published := (e.published.toList.take 10).asString
    citations := 0
    semantic_scholar_id := none }

/-- Outcome of one catalog page request: a parsed page of entries, or any
exception in the request/parse (caught by `except Exception: break`). -/
inductive ApiResp where
  | page (entries : List Entry)
  | failure

/-- How the inner paging loop of one time slice ends: `finished` carries
the accumulated records (flag `is_lastbatchinquery` set, or the
exception `break`); `fatalStop` is the `exit()` call on an empty page. -/
inductive SliceOut where
  | finished (papers : List Paper)
  | fatalStop
deriving DecidableEq

/-- Result of a whole fetcher run: the returned list, or process
termination by `exit()`. -/
inductive FetchResult where
  | ok (papers : List Paper)
  | fatal
deriving DecidableEq

/-- The inner `while is_lastbatchinquery == False` paging loop of one time
slice (lines 79-183), with fuel.  `api i` is the response to the page
request at offset `start = i`; `batch` is `batch_size` (400).  Per the
source: an exception ends the slice keeping the papers so far; a page
whose non-error (`paper_entries`) count is zero calls `exit()` before
processing; otherwise ALL entries (error entries included) are appended
and `start_index += len(entries)`; a short non-empty page sets the
last-batch flag after processing. -/
def sliceLoop (api : Nat → ApiResp) (batch : Nat) :
    Nat → List Paper → Nat → Option SliceOut
  | 0, _, _ => none
  | fuel + 1, papers, start_index =>
    match api start_index with
    | .failure => some (.finished papers)
    | .page entries =>
      let paper_entries := entries.filter (fun e => !entryIsError e)
      if paper_entries.length = 0 then
        some .fatalStop
      else
        let papers' := papers ++ entries.map entryToPaper
        if paper_entries.length < batch then
          some (.finished papers')
        else
          sliceLoop api batch fuel papers' (start_index + entries.length)

/-- The records a slice's paging loop appends: the concatenation of the
returned pages' entries, mapped by `entryToPaper`, following the same
control flow as `sliceLoop`. -/
def sliceNew (api : Nat → ApiResp) (batch : Nat) : Nat → Nat → List Paper
  | 0, _ => []
  | fuel + 1, start_index =>
    match api start_index with
    | .failure => []
    | .page entries =>
      let paper_entries := entries.filter (fun e => !entryIsError e)
      if paper_entries.length = 0 then []
      else if paper_entries.length < batch then entries.map entryToPaper
      else entries.map entryToPaper ++ sliceNew api batch fuel (start_index + entries.length)

/-- The outer `while current_start < end_date` time-slice loop (lines
63-184), with fuel.  `api sliceStart sliceEnd i` answers the page request
at offset `i` for the slice `[sliceStart, sliceEnd]` (dates as ordinal day
numbers); `slice_end = min(current_start + timedelta(days=7), end_date)`
and the next iteration starts at `slice_end`.  The target-count check
`if len(papers) >= max_results: break` sits at the top of the loop, before
the slice is paged. -/
def outerLoop (api : Nat → Nat → Nat → ApiResp)
    (max_results batch sliceFuel endDate : Nat) :
    Nat → Nat → List Paper → Option FetchResult
  | 0, _, _ => none
  | fuel + 1, current_start, papers =>
    if current_start < endDate then
      if max_results ≤ papers.length then
        some (.ok papers)
      else
        let slice_end := min (current_start + 7) endDate
        match sliceLoop (api current_start slice_end) batch sliceFuel papers 0 with
        | none => none
        | some .fatalStop => some .fatal
        | some (.finished papers') =>
          outerLoop api max_results batch sliceFuel endDate fuel slice_end papers'
    else
      some (.ok papers)

/-- `get_arxiv_cs_ai_papers(max_results)` (lines 45-189): the slice loop
over the hard-coded window `datetime(2024, 1, 1)` .. `datetime(2025, 7, 1)`
(ordinal days 0 .. 547) with `batch_size = 400`, starting from an empty
list. -/
def get_arxiv_cs_ai_papers (api : Nat → Nat → Nat → ApiResp)
    (max_results sliceFuel outerFuel : Nat) : Option FetchResult :=
  outerLoop api max_results 400 sliceFuel 547 outerFuel 0 []

/-! ### Ranker (`run`, lines 344-346) and Downloader (`download_paper_pdf`, lines 262-287) -/

/-- The ordering used by `sorted(papers_with_citations,
key=lambda x: x['citations'], reverse=True)`: `x` sorts no later than `y`
iff `x`'s citation count is at least `y`'s. -/
def citGE (x y : Paper) : Prop :=
  y.citations ≤ x.citations

instance : DecidableRel citGE :=
  fun x y => inferInstanceAs (Decidable (y.citations ≤ x.citations))

instance : IsTotal Paper citGE :=
  ⟨fun a b => Int.le_total b.citations a.citations⟩

instance : IsTrans Paper citGE :=
  ⟨fun _ _ _ hab hbc => Int.le_trans hbc hab⟩

/-- Python's `sorted` with a key and `reverse=True` is the stable
descending sort by that key; insertion sort over the total preorder
`citGE` is the canonical stable sort, so it models line 344 exactly. -/
def rankPapers (papers : List Paper) : List Paper :=
  List.insertionSort citGE papers

/-- Lines 344-346: `sorted(..., reverse=True)[:self.max_papers]`. -/
def topK (max_papers : Nat) (papers : List Paper) : List Paper :=
  (rankPapers papers).take max_papers

/-- Line 265: `"".join(c for c in title if c.isalnum() or c in (' ', '-', '_')).rstrip()`. -/
def clean_title (title : String) : String :=
  (((title.toList.filter
      (fun c => c.isAlphanum || c = ' ' || c = '-' || c = '_')).reverse.dropWhile
        Char.isWhitespace).reverse).asString

/-- Line 266: `f"{arxiv_id}_{clean_title[:50]}.pdf"`. -/
def derivedFilename (arxiv_id title : String) : String :=
  arxiv_id ++ "_" ++ ((clean_title title).toList.take 50).asString ++ ".pdf"

/-- Line 267: `os.path.join(self.download_dir, filename)` with
`download_dir = "top_cited_cs_ai_papers"`. -/
def derivedFilepath (arxiv_id title : String) : String :=
  "top_cited_cs_ai_papers/" ++ derivedFilename arxiv_id title

/-- Result of one `download_paper_pdf` call: the returned value (a path or
`None`), whether an HTTP fetch of the PDF URL was issued, and the
filesystem afterwards (a predicate on paths: does the file exist). -/
structure DownloadOutcome where
  result : Option String
  fetchIssued : Bool
  fs : String → Bool

/-- `download_paper_pdf(arxiv_id, title, authors)` (lines 262-287) over an
abstract filesystem `fs` and a fetch oracle `fetchOk` (does the
`requests.get` of the PDF succeed).  If the derived filepath exists the
path is returned with no fetch; otherwise the PDF is fetched and either
written (path returned, file now exists) or the failure logged
(`None` returned). -/
def download_paper_pdf (fs : String → Bool) (fetchOk : Bool)
    (arxiv_id title : String) (authors : List String) : DownloadOutcome :=
  let filepath := derivedFilepath arxiv_id title
  if fs filepath then
    { result := some filepath, fetchIssued := false, fs := fs }
  else if fetchOk then
    { result := some filepath, fetchIssued := true,
      fs := fun q => if q = filepath then true else fs q }
  else
    { result := none, fetchIssued := true, fs := fs }

/-! ### Helper lemmas: stability of insertion sort under `filter` -/

theorem filter_orderedInsert_pos {α : Type _} (r : α → α → Prop) [DecidableRel r]
    (p : α → Bool) (hp : ∀ a b, p a = true → p b = true → r a b)
    (a : α) (ha : p a = true) :
    ∀ l : List α, (List.orderedInsert r a l).filter p = a :: l.filter p
  | [] => by simp [ha]
  | b :: l => by
    by_cases hr : r a b
    · simp [List.orderedInsert, hr, List.filter_cons, ha]
    · have hb : p b = false := by
        cases hpb : p b
        · rfl
        · exact absurd (hp a b ha hpb) hr
      simp [List.orderedInsert, hr, List.filter_cons, hb,
        filter_orderedInsert_pos r p hp a ha l]

theorem filter_orderedInsert_neg {α : Type _} (r : α → α → Prop) [DecidableRel r]
    (p : α → Bool) (a : α) (ha : p a = false) :
    ∀ l : List α, (List.orderedInsert r a l).filter p = l.filter p
  | [] => by simp [ha]
  | b :: l => by
    by_cases hr : r a b
    · simp [List.orderedInsert, hr, List.filter_cons, ha]
    · simp [List.orderedInsert, hr, List.filter_cons,
        filter_orderedInsert_neg r p a ha l]

theorem filter_insertionSort {α : Type _} (r : α → α → Prop) [DecidableRel r]
    (p : α → Bool) (hp : ∀ a b, p a = true → p b = true → r a b) :
    ∀ l : List α, (List.insertionSort r l).filter p = l.filter p
  | [] => rfl
  | b :: l => by
    cases hb : p b
    · simp [List.insertionSort, List.filter_cons, hb,
        filter_orderedInsert_neg r p b hb, filter_insertionSort r p hp l]
    · simp [List.insertionSort, List.filter_cons, hb,
        filter_orderedInsert_pos r p hp b hb, filter_insertionSort r p hp l]

/-! ### Claim theorems -/

/-- The three records of the spec's ranking example: input order
`[a(5), b(20), c(20)]`. -/
def exPaperA : Paper :=
  { arxiv_id := "a", title := "", authors := [], published := "",
    citations := 5, semantic_scholar_id := none }

def exPaperB : Paper :=
  { arxiv_id := "b", title := "", authors := [], published := "",
    citations := 20, semantic_scholar_id := none }

def exPaperC : Paper :=
  { arxiv_id := "c", title := "", authors := [], published := "",
    citations := 20, semantic_scholar_id := none }

/-- Claim C2: the Ranker sorts the enriched records by citation count
descending (`Sorted citGE`), as a permutation of the input, with a stable
tie-break (for every count `c`, the records of count `c` appear in the
output exactly as they appear in the input), and then takes the first K;
in particular on input `[a(5), b(20), c(20)]` with K = 2 the output is
`[b(20), c(20)]`. -/
theorem ranker_sorted_stable_top_k (l : List Paper) (k : Nat) :
    List.Sorted citGE (rankPapers l)
    ∧ List.Perm (rankPapers l) l
    ∧ (∀ c : Int, (rankPapers l).filter (fun p => p.citations == c) =
        l.filter (fun p => p.citations == c))
    ∧ topK k l = (rankPapers l).take k
    ∧ topK 2 [exPaperA, exPaperB, exPaperC] = [exPaperB, exPaperC] := by
  refine ⟨List.sorted_insertionSort citGE l, List.perm_insertionSort citGE l,
    ?_, rfl, by decide⟩
  intro c
  refine filter_insertionSort citGE (fun p => p.citations == c) ?_ l
  intro a b ha hb
  have h1 : a.citations = c := by simpa using ha
  have h2 : b.citations = c := by simpa using hb
  simp [citGE, h1, h2]

/-- Claim C9: the Downloader is idempotent for existing files: if the
derived filepath already exists, `download_paper_pdf` returns that path
with no fetch issued and the filesystem unchanged; moreover after any
successful download the derived filepath exists, so an immediate re-run
never re-fetches. -/
theorem downloader_skips_existing_file (fs : String → Bool) (fetchOk : Bool)
    (arxiv_id title : String) (authors : List String)
    (h : fs (derivedFilepath arxiv_id title) = true) :
    download_paper_pdf fs fetchOk arxiv_id title authors =
      { result := some (derivedFilepath arxiv_id title), fetchIssued := false, fs := fs }
    ∧ (download_paper_pdf fs true arxiv_id title authors).fs
        (derivedFilepath arxiv_id title) = true := by
  constructor
  · simp [download_paper_pdf, h]
  · simp [download_paper_pdf, h]

/-- A concrete input record used by several witnesses. -/
def pX : Paper :=
  { arxiv_id := "2401.1v1", title := "T", authors := [], published := "",
    citations := 0, semantic_scholar_id := none }

theorem findArxivMatch_eq_find? (cid : String) :
    ∀ data : List Candidate,
      findArxivMatch cid data = data.find? (fun c => c.arxivExternalId == some cid)
  | [] => rfl
  | c :: rest => by
    by_cases h : c.arxivExternalId = some cid
    · simp [findArxivMatch, h]
    · simp [findArxivMatch, h, findArxivMatch_eq_find? cid rest]

/-- Claim C8: the Enricher's best-match selection: the id-match loop picks
the first candidate whose reported ArXiv identifier equals the input's
identifier with version suffixes stripped (`List.find?` of that
predicate); when no candidate matches it falls back to the first returned
candidate; when the candidate list is empty the citation count stays 0;
and `cleanArxivId` strips a version suffix. -/
theorem enricher_best_match_selection (cid : String) (data : List Candidate) (p : Paper) :
    findArxivMatch cid data = data.find? (fun c => c.arxivExternalId == some cid)
    ∧ (data.find? (fun c => c.arxivExternalId == some cid) = none →
        bestMatch cid data = data.head?)
    ∧ (successUpdate p []).citations = 0
    ∧ cleanArxivId "2401.00001v2" = "2401.00001" := by
  refine ⟨findArxivMatch_eq_find? cid data, ?_, rfl, by decide⟩
  intro hnone
  unfold bestMatch
  rw [findArxivMatch_eq_find? cid data, hnone]

/-- Witness for C8: on a list whose single candidate has no ArXiv id, the
fallback picks that first candidate. -/
theorem enricher_best_match_selection_witness :
    bestMatch "2401.1" [(⟨none, some 3, none⟩ : Candidate)] =
      some (⟨none, some 3, none⟩ : Candidate) :=
  (enricher_best_match_selection "2401.1" [(⟨none, some 3, none⟩ : Candidate)] pX).2.1
    (by decide)

theorem enrichLoop_429_step (p : Paper) (resp : Nat → SSResp) (attempt fuel : Nat)
    (r : Option Nat) (h : resp attempt = .httpError 429 r) :
    enrichLoop p resp attempt (fuel + 1) =
      match enrichLoop p resp (attempt + 1) fuel with
      | none => none
      | some (res, sleeps) => some (res, r.getD 1 :: sleeps) := by
  simp [enrichLoop, h]

theorem enrichLoop_429_shift (p : Paper) (resp : Nat → SSResp) (ra : Nat → Option Nat)
    (data : List Candidate) :
    ∀ m a : Nat, (∀ k, k < m → resp (a + k) = .httpError 429 (ra (a + k))) →
      resp (a + m) = .success data →
      enrichLoop p resp a (m + 1) =
        some (some (successUpdate p data),
          (List.range m).map (fun k => (ra (a + k)).getD 1))
  | 0, a, _, hs => by
    simp only [Nat.add_zero] at hs
    simp [enrichLoop, hs]
  | m + 1, a, h429, hs => by
    have ha : resp a = .httpError 429 (ra a) := by
      simpa using h429 0 (Nat.succ_pos m)
    have hrec := enrichLoop_429_shift p resp ra data m (a + 1)
      (fun k hk => by
        have := h429 (k + 1) (Nat.succ_lt_succ hk)
        simpa [show a + (k + 1) = a + 1 + k by omega] using this)
      (by simpa [show a + (m + 1) = a + 1 + m by omega] using hs)
    have hmap : (List.range (m + 1)).map (fun k => (ra (a + k)).getD 1) =
        (ra a).getD 1 :: (List.range m).map (fun k => (ra (a + 1 + k)).getD 1) := by
      rw [List.range_succ_eq_map, List.map_cons, List.map_map]
      refine congrArg₂ _ (by simp) ?_
      refine congrArg₂ _ (funext fun k => ?_) rfl
      simp [Function.comp, show a + (k + 1) = a + 1 + k by omega]
    rw [hmap, enrichLoop_429_step p resp a (m + 1) (ra a) ha, hrec]

theorem enrichLoop_all_429 (p : Paper) (resp : Nat → SSResp)
    (h : ∀ k, ∃ r, resp k = .httpError 429 r) :
    ∀ (fuel a : Nat), enrichLoop p resp a fuel = none
  | 0, _ => rfl
  | fuel + 1, a => by
    obtain ⟨r, hr⟩ := h a
    simp [enrichLoop, hr, enrichLoop_all_429 p resp h fuel (a + 1)]

/-- Claim C7: on HTTP 429 the Enricher sleeps the response's retry-after
duration (default 1 when the header is absent) and retries the same
record: after `m` consecutive 429 responses followed by a success, the
retry loop ends with the enriched record kept and exactly the `m`
retry-after sleeps taken — for every `m`, so rate limiting never drops
the record; and if every response is a 429 the loop never gives up (it
exhausts any amount of fuel rather than drop the record). -/
theorem enricher_retries_on_rate_limit (p : Paper) (resp : Nat → SSResp)
    (m : Nat) (ra : Nat → Option Nat) (data : List Candidate) :
    ((∀ k, k < m → resp k = .httpError 429 (ra k)) → resp m = .success data →
      enrichLoop p resp 0 (m + 1) =
        some (some (successUpdate p data), (List.range m).map (fun k => (ra k).getD 1)))
    ∧ ((∀ k, resp k = .httpError 429 (ra k)) →
        ∀ fuel, enrichLoop p resp 0 fuel = none) := by
  constructor
  · intro h429 hs
    have := enrichLoop_429_shift p resp ra data m 0
      (fun k hk => by simpa using h429 k hk) (by simpa using hs)
    simpa using this
  · intro hall fuel
    exact enrichLoop_all_429 p resp (fun k => ⟨ra k, hall k⟩) fuel 0

/-- Witness for C7: two consecutive 429 responses with `Retry-After: 7`,
then a success: the record is kept after sleeping 7 twice; and a stream of
nothing but 429s exhausts fuel 5 without dropping the record. -/
theorem enricher_retries_on_rate_limit_witness :
    enrichLoop pX (fun k => if k < 2 then SSResp.httpError 429 (some 7)
        else SSResp.success []) 0 3 =
      some (some (successUpdate pX []), [7, 7])
    ∧ enrichLoop pX (fun _ => SSResp.httpError 429 none) 0 5 = none := by
  constructor
  · have h := (enricher_retries_on_rate_limit pX
      (fun k => if k < 2 then SSResp.httpError 429 (some 7) else SSResp.success [])
      2 (fun _ => some 7) []).1
      (fun k hk => by simp [hk])
      (by norm_num)
    simpa using h
  · exact (enricher_retries_on_rate_limit pX (fun _ => SSResp.httpError 429 none)
      0 (fun _ => none) []).2 (fun _ => rfl) 5

/-- A concrete non-error catalog entry used by several witnesses. -/
def entryX : Entry :=
  { idUrl := "http://arxiv.org/abs/2401.1v1", title := " T ", authors := ["A"],
    published := "2024-01-05T00:00:00Z" }

/-- Claim C5: within a slice, a page with at least one but fewer than
`batch_size` paper entries ends the slice's paging loop (after its entries
are appended); a page with zero paper entries immediately ends the whole
run as fatal (no entries appended, no retry); and a fatal slice makes the
whole fetcher run return fatal. -/
theorem fetcher_slice_termination_and_fatal
    (api : Nat → ApiResp) (batch fuel i : Nat) (papers : List Paper)
    (entries : List Entry) (api2 : Nat → Nat → Nat → ApiResp)
    (mr sf ed of cur : Nat) (papers2 : List Paper) :
    (api i = .page entries →
      (entries.filter (fun e => !entryIsError e)).length = 0 →
      sliceLoop api batch (fuel + 1) papers i = some .fatalStop)
    ∧ (api i = .page entries →
      0 < (entries.filter (fun e => !entryIsError e)).length →
      (entries.filter (fun e => !entryIsError e)).length < batch →
      sliceLoop api batch (fuel + 1) papers i =
        some (.finished (papers ++ entries.map entryToPaper)))
    ∧ (cur < ed → papers2.length < mr →
      sliceLoop (api2 cur (min (cur + 7) ed)) batch sf papers2 0 = some .fatalStop →
      outerLoop api2 mr batch sf ed (of + 1) cur papers2 = some .fatal) := by
  refine ⟨?_, ?_, ?_⟩
  · intro hapi h0
    simp [sliceLoop, hapi, h0]
  · intro hapi h0 hlt
    have hne : ¬((entries.filter (fun e => !entryIsError e)).length = 0) := by omega
    simp [sliceLoop, hapi, hne, hlt]
  · intro hcur hlen hslice
    have hnle : ¬(mr ≤ papers2.length) := by omega
    simp [outerLoop, hcur, hnle, hslice]

/-- Witness for C5: an all-error page is fatal; a one-entry page ends the
slice with the entry appended; an immediately fatal slice aborts the run. -/
theorem fetcher_slice_termination_and_fatal_witness :
    sliceLoop (fun _ => ApiResp.page []) 400 1 [] 0 = some .fatalStop
    ∧ sliceLoop (fun _ => ApiResp.page [entryX]) 400 1 [] 0 =
        some (.finished ([] ++ [entryX].map entryToPaper))
    ∧ outerLoop (fun _ _ _ => ApiResp.page []) 400 1 400 547 1 0 [] = some .fatal := by
  refine ⟨?_, ?_, ?_⟩
  · exact (fetcher_slice_termination_and_fatal (fun _ => ApiResp.page []) 400 0 0 []
      [] (fun _ _ _ => ApiResp.page []) 1 1 1 0 0 []).1 rfl (by decide)
  · exact (fetcher_slice_termination_and_fatal (fun _ => ApiResp.page [entryX]) 400 0 0 []
      [entryX] (fun _ _ _ => ApiResp.page []) 1 1 1 0 0 []).2.1 rfl (by decide) (by decide)
  · exact (fetcher_slice_termination_and_fatal (fun _ => ApiResp.page []) 400 0 0 []
      [] (fun _ _ _ => ApiResp.page []) 400 400 547 0 0 []).2.2 (by decide) (by decide) rfl

/-- Claim C6: when a page keeps the paging loop going (a full batch of
paper entries), the next request is made at the old offset plus the number
of entries actually returned in the page — `start_index += len(entries)` —
not at the old offset plus the nominal batch size. -/
theorem fetcher_advances_by_actual_count
    (api : Nat → ApiResp) (batch fuel i : Nat) (papers : List Paper)
    (entries : List Entry) (hapi : api i = .page entries) (hb : 0 < batch)
    (hfull : batch ≤ (entries.filter (fun e => !entryIsError e)).length) :
    sliceLoop api batch (fuel + 1) papers i =
      sliceLoop api batch fuel (papers ++ entries.map entryToPaper) (i + entries.length) := by
  have hne : ¬((entries.filter (fun e => !entryIsError e)).length = 0) := by omega
  have hnlt : ¬((entries.filter (fun e => !entryIsError e)).length < batch) := by omega
  simp [sliceLoop, hapi, hne, hnlt]

/-- Witness for C6 with batch size 1 and a one-entry full page. -/
theorem fetcher_advances_by_actual_count_witness :
    sliceLoop (fun _ => ApiResp.page [entryX]) 1 1 [] 0 =
      sliceLoop (fun _ => ApiResp.page [entryX]) 1 0 ([] ++ [entryX].map entryToPaper)
        (0 + [entryX].length) :=
  fetcher_advances_by_actual_count (fun _ => ApiResp.page [entryX]) 1 0 0 [] [entryX]
    rfl (by decide) (by decide)

theorem filter_replicate_eq_self {α : Type _} (p : α → Bool) (a : α)
    (hpa : p a = true) :
    ∀ n, (List.replicate n a).filter p = List.replicate n a
  | 0 => rfl
  | n + 1 => by
    simp [List.replicate_succ, List.filter_cons, hpa, filter_replicate_eq_self p a hpa n]

/-- An API model for C10: a slice holding exactly `b * k` paper records,
served in full pages of `b`: every request at an offset below `b * k`
returns a full page, and the request after the last full page returns an
empty page. -/
def multApi (e : Entry) (b k i : Nat) : ApiResp :=
  if i < b * k then .page (List.replicate b e) else .page []

theorem multApi_fatal (e : Entry) (b k : Nat)
    (he : entryIsError e = false) (hb : 0 < b) :
    ∀ (sf j : Nat) (papers : List Paper), j ≤ k → k - j < sf →
      sliceLoop (multApi e b k) b sf papers (b * j) = some .fatalStop
  | 0, j, _, _, hlt => absurd hlt (by omega)
  | sf + 1, j, papers, hj, hlt => by
    by_cases hjk : j = k
    · subst hjk
      have hni : ¬(b * j < b * j) := lt_irrefl _
      have hapi : multApi e b j (b * j) = .page [] := by
        unfold multApi
        rw [if_neg hni]
      simp [sliceLoop, hapi]
    · have hjk' : j < k := lt_of_le_of_ne hj hjk
      have hle : b * (j + 1) ≤ b * k := Nat.mul_le_mul_left b (Nat.succ_le_of_lt hjk')
      have hi : b * j < b * k := by
        rw [Nat.mul_succ] at hle
        omega
      have hapi : multApi e b k (b * j) = .page (List.replicate b e) := by
        unfold multApi
        rw [if_pos hi]
      have hfilt : (List.replicate b e).filter (fun x => !entryIsError x) =
          List.replicate b e :=
        filter_replicate_eq_self _ e (by simp [he]) b
      have hne : ¬(((List.replicate b e).filter (fun x => !entryIsError x)).length = 0) := by
        rw [hfilt]
        simp
        omega
      have hnlt : ¬(((List.replicate b e).filter (fun x => !entryIsError x)).length < b) := by
        rw [hfilt]
        simp
      have hrec := multApi_fatal e b k he hb sf (j + 1)
        (papers ++ (List.replicate b e).map entryToPaper) hjk' (by omega)
      rw [show b * (j + 1) = b * j + b by ring] at hrec
      have hstep : sliceLoop (multApi e b k) b (sf + 1) papers (b * j) =
          sliceLoop (multApi e b k) b sf
            (papers ++ (List.replicate b e).map entryToPaper)
            (b * j + (List.replicate b e).length) := by
        simp only [sliceLoop, hapi]
        rw [if_neg hne, if_neg hnlt]
      rw [hstep, List.length_replicate]
      exact hrec

/-- Claim C10: when a slice's total result count is a positive exact
multiple `b * k` of the batch size, the page request after the last full
page returns zero paper entries and the fetcher takes the fatal
empty-page branch; with batch size 400 this terminates the whole
`get_arxiv_cs_ai_papers` run as fatal — the fatal branch is reachable for
a merely exhausted slice. -/
theorem fetcher_fatal_on_exact_multiple_slice
    (e : Entry) (b k sf mr of : Nat)
    (he : entryIsError e = false) (hb : 0 < b) (hk : 0 < k)
    (hsf : k < sf) (hmr : 0 < mr) :
    sliceLoop (multApi e b k) b sf [] 0 = some .fatalStop
    ∧ get_arxiv_cs_ai_papers (fun _ _ i => multApi e 400 k i) mr sf (of + 1) =
        some .fatal := by
  constructor
  · have h := multApi_fatal e b k he hb sf 0 [] (Nat.zero_le k) (by omega)
    simpa using h
  · have hslice := multApi_fatal e 400 k he (by omega) sf 0 [] (Nat.zero_le k) (by omega)
    simp only [Nat.mul_zero] at hslice
    have h0 : (0 : Nat) < 547 := by omega
    have hne0 : ¬(mr = 0) := by omega
    simp [get_arxiv_cs_ai_papers, outerLoop, h0, hne0, hslice]

/-- Witness for C10: a slice of exactly 2 = 2 * 1 records in one full
page of 2 is fatal, and a 400-record slice makes the whole run fatal. -/
theorem fetcher_fatal_on_exact_multiple_slice_witness :
    sliceLoop (multApi entryX 2 1) 2 3 [] 0 = some .fatalStop
    ∧ get_arxiv_cs_ai_papers (fun _ _ i => multApi entryX 400 1 i) 1 3 1 = some .fatal :=
  fetcher_fatal_on_exact_multiple_slice entryX 2 1 3 1 0 (by decide) (by decide)
    (by decide) (by decide) (by decide)

/-- Counterexample to C3: an API whose consecutive slices legitimately
return the same (boundary-day) record gives a returned catalog in which
the `arxiv_id` occurs twice — the fetcher performs no deduplication. -/
theorem fetcher_duplicate_ids :
    get_arxiv_cs_ai_papers (fun _ _ _ => ApiResp.page [entryX]) 2 2 3 =
      some (.ok [entryToPaper entryX, entryToPaper entryX])
    ∧ ¬ ([entryToPaper entryX, entryToPaper entryX].map Paper.arxiv_id).Nodup := by
  constructor
  · rfl
  · decide

theorem sliceLoop_finished_eq (api : Nat → ApiResp) (batch : Nat) :
    ∀ (fuel i : Nat) (papers out : List Paper),
      sliceLoop api batch fuel papers i = some (.finished out) →
      out = papers ++ sliceNew api batch fuel i
  | 0, i, papers, out, h => by simp [sliceLoop] at h
  | fuel + 1, i, papers, out, h => by
    cases hapi : api i with
    | failure =>
      simp only [sliceLoop, hapi] at h
      simp only [Option.some.injEq, SliceOut.finished.injEq] at h
      simp [sliceNew, hapi, ← h]
    | page entries =>
      simp only [sliceLoop, hapi] at h
      by_cases h0 : (entries.filter (fun e => !entryIsError e)).length = 0
      · rw [if_pos h0] at h
        simp at h
      · rw [if_neg h0] at h
        by_cases hlt : (entries.filter (fun e => !entryIsError e)).length < batch
        · rw [if_pos hlt] at h
          simp only [Option.some.injEq, SliceOut.finished.injEq] at h
          simp only [sliceNew, hapi]
          rw [if_neg h0, if_pos hlt, ← h]
        · rw [if_neg hlt] at h
          have ih := sliceLoop_finished_eq api batch fuel (i + entries.length)
            (papers ++ entries.map entryToPaper) out h
          rw [ih]
          simp only [sliceNew, hapi]
          rw [if_neg h0, if_neg hlt, List.append_assoc]

theorem outerLoop_append_only (api : Nat → Nat → Nat → ApiResp) (mr batch sf ed : Nat) :
    ∀ (fuel cur : Nat) (papers out : List Paper),
      outerLoop api mr batch sf ed fuel cur papers = some (.ok out) →
      ∃ t, out = papers ++ t
  | 0, cur, papers, out, h => by simp [outerLoop] at h
  | fuel + 1, cur, papers, out, h => by
    by_cases hcur : cur < ed
    · by_cases hmr : mr ≤ papers.length
      · simp only [outerLoop, if_pos hcur, if_pos hmr, Option.some.injEq,
          FetchResult.ok.injEq] at h
        exact ⟨[], by simp [← h]⟩
      · simp only [outerLoop, if_pos hcur, if_neg hmr] at h
        cases hs : sliceLoop (api cur (min (cur + 7) ed)) batch sf papers 0 with
        | none => rw [hs] at h; simp at h
        | some so =>
          cases so with
          | fatalStop => rw [hs] at h; simp at h
          | finished papers' =>
            rw [hs] at h
            obtain ⟨t, ht⟩ := outerLoop_append_only api mr batch sf ed fuel
              (min (cur + 7) ed) papers' out h
            have hp := sliceLoop_finished_eq (api cur (min (cur + 7) ed)) batch sf 0
              papers papers' hs
            exact ⟨sliceNew (api cur (min (cur + 7) ed)) batch sf 0 ++ t,
              by rw [ht, hp, List.append_assoc]⟩
    · simp only [outerLoop, if_neg hcur, Option.some.injEq, FetchResult.ok.injEq] at h
      exact ⟨[], by simp [← h]⟩

/-- Claim C3 (amended): the fetcher performs no deduplication: a slice
that finishes contributes to the catalog exactly the concatenation of its
pages' entries mapped to records (`sliceNew`), and a whole run only ever
appends to the accumulated list — so `arxiv_id` is unique in the returned
catalog only when the API responses themselves never repeat an id. -/
theorem fetcher_no_dedup_append_only
    (api : Nat → ApiResp) (api2 : Nat → Nat → Nat → ApiResp)
    (batch fuel mr sf ed fuel2 cur i : Nat) (papers papers2 out out2 : List Paper) :
    (sliceLoop api batch fuel papers i = some (.finished out) →
      out = papers ++ sliceNew api batch fuel i)
    ∧ (outerLoop api2 mr batch sf ed fuel2 cur papers2 = some (.ok out2) →
      ∃ t, out2 = papers2 ++ t) :=
  ⟨sliceLoop_finished_eq api batch fuel i papers out,
   outerLoop_append_only api2 mr batch sf ed fuel2 cur papers2 out2⟩

/-- Witness for C3's amended theorem: a one-page slice contributes exactly
its page, and a duplicate-returning run's output extends the empty
accumulator. -/
theorem fetcher_no_dedup_append_only_witness :
    [entryToPaper entryX] = [] ++ sliceNew (fun _ => ApiResp.page [entryX]) 400 1 0
    ∧ ∃ t, [entryToPaper entryX, entryToPaper entryX] = [] ++ t :=
  ⟨(fetcher_no_dedup_append_only (fun _ => ApiResp.page [entryX])
      (fun _ _ _ => ApiResp.page [entryX]) 400 1 2 2 547 3 0 0 [] [] [entryToPaper entryX]
      [entryToPaper entryX, entryToPaper entryX]).1 rfl,
   (fetcher_no_dedup_append_only (fun _ => ApiResp.page [entryX])
      (fun _ _ _ => ApiResp.page [entryX]) 400 1 2 2 547 3 0 0 [] [] [entryToPaper entryX]
      [entryToPaper entryX, entryToPaper entryX]).2 rfl⟩

/-- Counterexample to C4: with requested count 1, a first slice whose
single page holds 2 records is still consumed to its end, so the run
returns 2 records — the output length exceeds `max_results`. -/
theorem fetcher_exceeds_max_results :
    get_arxiv_cs_ai_papers (fun _ _ _ => ApiResp.page [entryX, entryX]) 1 1 2 =
      some (.ok [entryToPaper entryX, entryToPaper entryX])
    ∧ ¬ ([entryToPaper entryX, entryToPaper entryX].length ≤ 1) := by
  constructor
  · rfl
  · decide

/-- Claim C4 (amended): the fetcher checks the running total only at the
top of the slice loop: once the accumulated total has reached
`max_results`, no further slice is started and the accumulated list is
returned as is.  (Within a slice it keeps appending regardless of the
target, so the final length can exceed `max_results`.) -/
theorem fetcher_stops_at_slice_boundary
    (api : Nat → Nat → Nat → ApiResp) (mr batch sf ed fuel cur : Nat)
    (papers : List Paper) (hcur : cur < ed) (hmr : mr ≤ papers.length) :
    outerLoop api mr batch sf ed (fuel + 1) cur papers = some (.ok papers) := by
  simp [outerLoop, hcur, hmr]

/-- Witness for C4's amended theorem: a run that already holds its 1
requested record returns immediately. -/
theorem fetcher_stops_at_slice_boundary_witness :
    outerLoop (fun _ _ _ => ApiResp.page []) 1 400 1 547 1 0 [entryToPaper entryX] =
      some (.ok [entryToPaper entryX]) :=
  fetcher_stops_at_slice_boundary (fun _ _ _ => ApiResp.page []) 1 400 1 547 0 0
    [entryToPaper entryX] (by decide) (by decide)

/-- Counterexample to C1: a single record whose lookup hits an HTTP 500
(a non-rate-limit request failure) is dropped from the Enricher's output —
the returned list is empty although the input held one record, so the
output record count is NOT preserved and the record is NOT kept with
citation count 0. -/
theorem enricher_drops_failed_record :
    get_semantic_scholar_citations [(pX, fun _ : Nat => SSResp.httpError 500 none)] 1 = some []
    ∧ ¬ (([] : List Paper).length =
        [(pX, fun _ : Nat => SSResp.httpError 500 none)].length) := by
  constructor
  · rfl
  · simp

theorem gssc_length_le :
    ∀ (inputs : List (Paper × (Nat → SSResp))) (fuel : Nat) (out : List Paper),
      get_semantic_scholar_citations inputs fuel = some out →
      out.length ≤ inputs.length
  | [], fuel, out, h => by
    simp only [get_semantic_scholar_citations, Option.some.injEq] at h
    simp [← h]
  | (p, resp) :: rest, fuel, out, h => by
    simp only [get_semantic_scholar_citations] at h
    cases he : enrichLoop p resp 0 fuel with
    | none => rw [he] at h; simp at h
    | some r =>
      obtain ⟨kept, sleeps⟩ := r
      rw [he] at h
      cases hr : get_semantic_scholar_citations rest fuel with
      | none => rw [hr] at h; simp at h
      | some o =>
        rw [hr] at h
        have ih := gssc_length_le rest fuel o hr
        cases kept with
        | none =>
          simp only [Option.some.injEq] at h
          rw [← h]
          simp only [List.length_cons]
          omega
        | some p' =>
          simp only [Option.some.injEq] at h
          rw [← h]
          simp only [List.length_cons]
          omega

/-- Claim C1 (amended): the Enricher never grows the record count —
`len(output) ≤ len(input)` — and processes records independently: a
record whose first response is a success is kept (enriched) in front of
the rest's output, while a record whose first response is a non-429 HTTP
error, or any other exception, is DROPPED from the output (not kept with
citation count 0), the run continuing with the remaining records. -/
theorem enricher_length_le_and_continues
    (inputs : List (Paper × (Nat → SSResp))) (fuel : Nat) (out : List Paper)
    (p : Paper) (resp : Nat → SSResp) (rest : List (Paper × (Nat → SSResp)))
    (st : Nat) (ra : Option Nat) (data : List Candidate) (f : Nat) :
    (get_semantic_scholar_citations inputs fuel = some out →
      out.length ≤ inputs.length)
    ∧ (st ≠ 429 → resp 0 = .httpError st ra →
      get_semantic_scholar_citations ((p, resp) :: rest) (f + 1) =
        get_semantic_scholar_citations rest (f + 1))
    ∧ (resp 0 = .otherError →
      get_semantic_scholar_citations ((p, resp) :: rest) (f + 1) =
        get_semantic_scholar_citations rest (f + 1))
    ∧ (resp 0 = .success data →
      get_semantic_scholar_citations ((p, resp) :: rest) (f + 1) =
        (get_semantic_scholar_citations rest (f + 1)).map
          (fun l => successUpdate p data :: l)) := by
  refine ⟨gssc_length_le inputs fuel out, ?_, ?_, ?_⟩
  · intro hst hresp
    have hloop : enrichLoop p resp 0 (f + 1) = some (none, []) := by
      simp [enrichLoop, hresp, hst]
    simp only [get_semantic_scholar_citations, hloop]
    cases get_semantic_scholar_citations rest (f + 1) with
    | none => rfl
    | some o => rfl
  · intro hresp
    have hloop : enrichLoop p resp 0 (f + 1) = some (none, []) := by
      simp [enrichLoop, hresp]
    simp only [get_semantic_scholar_citations, hloop]
    cases get_semantic_scholar_citations rest (f + 1) with
    | none => rfl
    | some o => rfl
  · intro hresp
    have hloop : enrichLoop p resp 0 (f + 1) =
        some (some (successUpdate p data), []) := by
      simp [enrichLoop, hresp]
    simp only [get_semantic_scholar_citations, hloop]
    cases get_semantic_scholar_citations rest (f + 1) with
    | none => rfl
    | some o => rfl

/-- Witness for C1's amended theorem: the dropped-record run has output
length 0 ≤ 1; a 500-failing record in front of a succeeding one leaves
exactly the succeeding record's output; a succeeding record is kept. -/
theorem enricher_length_le_and_continues_witness :
    ([] : List Paper).length ≤ [(pX, fun _ : Nat => SSResp.httpError 500 none)].length
    ∧ get_semantic_scholar_citations
        [(pX, fun _ => SSResp.httpError 500 none), (pX, fun _ => SSResp.success [])]
        (0 + 1) =
      get_semantic_scholar_citations [(pX, fun _ => SSResp.success [])] (0 + 1)
    ∧ get_semantic_scholar_citations [(pX, fun _ => SSResp.success [])] (0 + 1) =
      (get_semantic_scholar_citations [] (0 + 1)).map
        (fun l => successUpdate pX [] :: l) :=
  ⟨(enricher_length_le_and_continues [(pX, fun _ => SSResp.httpError 500 none)] 1 []
      pX (fun _ => SSResp.httpError 500 none) [] 500 none [] 0).1 rfl,
   (enricher_length_le_and_continues [(pX, fun _ => SSResp.httpError 500 none)] 1 []
      pX (fun _ => SSResp.httpError 500 none) [(pX, fun _ => SSResp.success [])]
      500 none [] 0).2.1 (by decide) rfl,
   (enricher_length_le_and_continues [(pX, fun _ => SSResp.httpError 500 none)] 1 []
      pX (fun _ => SSResp.success []) [] 500 none [] 0).2.2.2 rfl⟩

/-- Witness for C9 at a concrete populated filesystem. -/
theorem downloader_skips_existing_file_witness :
    (fun q => q == derivedFilepath "1234.5" "My Paper") (derivedFilepath "1234.5" "My Paper") = true
    ∧ download_paper_pdf (fun q => q == derivedFilepath "1234.5" "My Paper") false
        "1234.5" "My Paper" ["A. Author"] =
      { result := some (derivedFilepath "1234.5" "My Paper"), fetchIssued := false,
        fs := fun q => q == derivedFilepath "1234.5" "My Paper" } :=
  ⟨by simp,
   (downloader_skips_existing_file (fun q => q == derivedFilepath "1234.5" "My Paper")
      false "1234.5" "My Paper" ["A. Author"] (by simp)).1⟩
